import Mathlib

/-!
Verification of the mnamer core (configuration resolution, directory
crawling, template rendering, interactive selection, relocation and the
run orchestrator) against its natural-language specification.

The Python source (`mnamer/__init__.py`) is shallowly embedded below:
pure functions become Lean functions on `String` / `List Char`, the
stateful orchestrator loop becomes a recursive function over an explicit
list of per-file behaviours, and Python dictionaries become functions
`String → Option α` merged with the `{**a, **b}` right-bias rule.
-/

namespace Mnamer

/-! ## Basic string machinery (Python semantics) -/

/-- Python `\s` / `str.strip()` whitespace class (ASCII portion). -/
def pyWhitespace (c : Char) : Bool :=
  c = ' ' || c = '\t' || c = '\n' || c = '\x0d' || c = '\x0b' || c = '\x0c'

/-- Does `needle` occur at the head of `hay`? -/
def headMatch : List Char → List Char → Bool
  | [], _ => true
  | _ :: _, [] => false
  | n :: ns, h :: hs => n = h && headMatch ns hs

/-- Python `needle in hay` substring test on character lists. -/
def containsSub (needle : List Char) : List Char → Bool
  | [] => headMatch needle []
  | h :: hs => headMatch needle (h :: hs) || containsSub needle hs

/-- Python `needle in hay` substring test on strings. -/
def containsSubStr (needle hay : String) : Bool :=
  containsSub needle.data hay.data

/-- Python `str.lower()` (ASCII model). -/
def lowerStr (s : String) : String :=
  String.mk (s.data.map Char.toLower)

/-- Python `str.strip('.')`: removes leading and trailing `.` characters. -/
def stripDotsEnds (s : String) : String :=
  String.mk (((s.data.dropWhile (fun c => c = '.')).reverse.dropWhile
    (fun c => c = '.')).reverse)

/-- Python `str.isdigit()` (ASCII model): non-empty and all digits. -/
def isDigitStr (s : String) : Bool :=
  !s.data.isEmpty && s.data.all Char.isDigit

/-- Value of a digit string, as Python `int(s)` on the strings the guard
`s.isdigit()` admits. -/
def strToNat (s : String) : Nat :=
  s.data.foldl (fun acc c => acc * 10 + (c.toNat - '0'.toNat)) 0

/-! ## Template rendering: `create_path`

The source pipeline (`create_path` in `mnamer/__init__.py`):
NFKD-normalize; (a discarded `encode('ascii', 'ignore')` call whose result
is not assigned and therefore has no effect); strip characters outside the
whitelist (space, `\d`, `\w`, `?`, `!`, `.`, `,`, parentheses, square
brackets, dash, slash); map dash, underscore and square brackets to a
space; apply
the `{'&': 'and'}` replacement table; collapse `\s+` to `.` or a space and
`strip()`; optionally lowercase. -/

/-- Python regex `\w` word character (ASCII model: `[A-Za-z0-9_]`). -/
def isWordChar (c : Char) : Bool :=
  c.isAlphanum || c = '_'

/-- Characters kept by the whitelist regex (the negated class of space,
`\d`, `\w`, `?`, `!`, `.`, `,`, parentheses, square brackets, dash, slash
is deleted). -/
def whitelistChar (c : Char) : Bool :=
  c = ' ' || c.isDigit || isWordChar c ||
  c = '?' || c = '!' || c = '.' || c = ',' ||
  c = '(' || c = ')' || c = '[' || c = ']' || c = '-' || c = '/'

/-- Characters of the regex class of dash, underscore and square brackets
that are mapped to a space. -/
def whitespaceClassChar (c : Char) : Bool :=
  c = '-' || c = '_' || c = '[' || c = ']'

/-- Unicode NFKD normalization, modelled as the identity: NFKD fixes every
ASCII string, and all text considered in this development is ASCII.  (The
source's following `text.encode('ascii', 'ignore')` discards its result,
so it is a no-op and is not modelled.) -/
def normalizeNFKD (text : List Char) : List Char := text

/-- Python `str.replace('&', 'and')`. -/
def replaceAmp : List Char → List Char
  | [] => []
  | c :: cs => if c = '&' then 'a' :: 'n' :: 'd' :: replaceAmp cs else c :: replaceAmp cs

/-- Regex `sub(r'\s+', sep, ·)`: each maximal whitespace run becomes one
copy of `sep`.  `inRun` records whether the previous character was part of
a whitespace run already rewritten. -/
def collapseWsGo (sep : Char) (inRun : Bool) : List Char → List Char
  | [] => []
  | c :: cs =>
    if pyWhitespace c then
      (if inRun then collapseWsGo sep true cs else sep :: collapseWsGo sep true cs)
    else c :: collapseWsGo sep false cs

/-- Regex `sub(r'\s+', sep, text)`. -/
def collapseWs (sep : Char) (text : List Char) : List Char :=
  collapseWsGo sep false text

/-- Python `str.strip()`: drop leading and trailing whitespace. -/
def stripWsChars (l : List Char) : List Char :=
  ((l.dropWhile pyWhitespace).reverse.dropWhile pyWhitespace).reverse

/-- `create_path` from the source, over the placeholder-substituted
intermediate text (the result of `meta.format(template)`). -/
def create_path (text : List Char) (lower dots : Bool) : List Char :=
  let t := normalizeNFKD text
  let t := t.filter whitelistChar
  let t := t.map (fun c => if whitespaceClassChar c then ' ' else c)
  let t := replaceAmp t
  let t := stripWsChars (collapseWs (if dots then '.' else ' ') t)
  if lower then t.map Char.toLower else t

/-- `create_path` over strings. -/
def create_pathStr (text : String) (lower dots : Bool) : String :=
  String.mk (create_path text.data lower dots)

/-! ## Placeholder substitution (`meta.format`)

The renderer's first step, `meta.format(template)`, is supplied by the
external `mapi` library (not part of this repository's sources). -/

/-- A metadata record: semantic field name to string value. -/
def Meta := List (String × String)

/-- Field lookup in a metadata record. -/
def metaLookup (meta : Meta) (name : String) : Option String :=
  match meta with
  | [] => none
  | (k, v) :: rest => if k = name then some v else metaLookup rest name

/-- Characters allowed in a `$field` placeholder name. -/
def isFieldChar (c : Char) : Bool :=
  c.isAlphanum || c = '_'

/-- Modelled from the spec: substitution inside one optional template
segment (the body between `<` and `>`), the external `mapi`
`Metadata.format` being outside this repository.  Per the spec, every
`$field` placeholder must resolve to a non-empty value, otherwise the
whole segment is omitted (`none`).  While a `$field` name is being read,
the first argument holds its characters so far, reversed. -/
def substSegGo (meta : Meta) : Option (List Char) → List Char → Option (List Char)
  | none, [] => some []
  | none, c :: cs =>
    if c = '$' then substSegGo meta (some []) cs
    else
      match substSegGo meta none cs with
      | none => none
      | some tail => some (c :: tail)
  | some buf, [] =>
    (match metaLookup meta (String.mk buf.reverse) with
     | none => none
     | some v => if v = "" then none else some v.data)
  | some buf, c :: cs =>
    if isFieldChar c then substSegGo meta (some (c :: buf)) cs
    else
      match metaLookup meta (String.mk buf.reverse) with
      | none => none
      | some v =>
        if v = "" then none
        else
          if c = '$' then
            match substSegGo meta (some []) cs with
            | none => none
            | some tail => some (v.data ++ tail)
          else
            match substSegGo meta none cs with
            | none => none
            | some tail => some (v.data ++ c :: tail)

/-- Substitution over a whole segment body. -/
def substSeg (meta : Meta) (seg : List Char) : Option (List Char) :=
  substSegGo meta none seg

/-- Modelled from the spec: top-level template scan of `mapi`'s
`Metadata.format`.  Literal text passes through; a `<` opens an optional
segment accumulated (reversed) in `buf` until the matching `>`; an omitted
segment contributes nothing. -/
def formatGo (meta : Meta) : Option (List Char) → List Char → List Char
  | none, [] => []
  | none, c :: cs =>
    if c = '<' then formatGo meta (some []) cs else c :: formatGo meta none cs
  | some _, [] => []
  | some buf, c :: cs =>
    if c = '>' then ((substSeg meta buf.reverse).getD []) ++ formatGo meta none cs
    else formatGo meta (some (c :: buf)) cs

/-- Modelled from the spec: `meta.format(template)` — placeholder
substitution with optional `<...>` segments. -/
def formatTemplate (meta : Meta) (template : String) : String :=
  String.mk (formatGo meta none template.data)

/-! ## Configuration resolution

`get_parameters` builds `options = {**defaults, **cli-non-None}`; `main`
then runs `options = {**config_load(file), **options}` for each config
file that loads successfully.  Python's `{**a, **b}` is right-biased:
keys of `b` win.  Dictionaries are embedded as `String → Option α`. -/

/-- Python `{**a, **b}`: a key defined in `b` wins over `a`. -/
def pyMergeDict {α : Type} (a b : String → Option α) : String → Option α :=
  fun k => match b k with
    | some v => some v
    | none => a k

/-- The option-resolution chain of `get_parameters` plus `main`'s config
loop: start from `{**defaults, **cli}`, then for each successfully loaded
config file `cfg` (in order) set `options := {**cfg, **options}`. -/
def resolveOptions {α : Type} (defaults cli : String → Option α)
    (cfgs : List (String → Option α)) : String → Option α :=
  cfgs.foldl (fun opts cfg => pyMergeDict cfg opts) (pyMergeDict defaults cli)

/-! ## Paths and the relocator (`move`) -/

/-- Python `Path(s)` on a string, as its string form: `Path('')` is
`PosixPath('.')`; other strings name the same path. -/
def pyPathOfString (s : String) : String :=
  if s = "" then "." else s

/-- Python truthiness of a `pathlib.Path` value: `Path` defines neither
`bool` nor `len`, so every `Path` instance is truthy. -/
def pyPathTruthy (_p : String) : Bool :=
  true

/-- The directory-resolution step of `move`: the destination option is a
string, so it is converted with `Path(...)`, and
`directory_path = destination or Path(path.parent)`. -/
def moveDirectoryPath (destination parent : String) : String :=
  let d := pyPathOfString destination
  if pyPathTruthy d then d else parent

/-- Modelled from the spec: destination-directory resolution — the
configured per-media-kind destination if set, else the source file's
parent directory. -/
def specDirectoryPath (destination parent : String) : String :=
  if destination = "" then parent else destination

/-! ### `pathlib.PurePosixPath` semantics

`pathlib` normalizes paths on construction: empty and `.` components are
dropped (so doubled and trailing slashes disappear, `Path('/dest/')` is
`PosixPath('/dest')`), a leading `/` is the root — kept as `//` when the
path starts with exactly two slashes — and `Path(dir) / s` discards
`dir` entirely when `s` is itself rooted. -/

/-- A parsed POSIX path: its root (`""`, `/` or `//`) and its retained
components. -/
structure PyPath where
  root : String
  comps : List String
deriving DecidableEq, Repr

/-- The root `PurePosixPath` extracts: `//` for exactly two leading
slashes, `/` for one or for three and more, `""` otherwise. -/
def pyRoot : List Char → String
  | '/' :: '/' :: '/' :: _ => "/"
  | '/' :: '/' :: _ => "//"
  | '/' :: _ => "/"
  | _ => ""

/-- Split on `/` separators (every slash ends a group). -/
def splitSlash : List Char → List (List Char)
  | [] => [[]]
  | c :: cs =>
    if c = '/' then [] :: splitSlash cs
    else
      match splitSlash cs with
      | [] => [[c]]
      | g :: gs => (c :: g) :: gs

/-- `PurePosixPath(s)`: root plus the components that survive
normalization (empty and `.` parts are dropped). -/
def pyPathParse (s : String) : PyPath :=
  ⟨pyRoot s.data,
    ((splitSlash s.data).map (fun g => String.mk g)).filter
      (fun c => c ≠ "" && c ≠ ".")⟩

/-- Components joined with `/` separators. -/
def joinComps : List String → String
  | [] => ""
  | [c] => c
  | c :: cs => c ++ "/" ++ joinComps cs

/-- `str()` of a `PurePosixPath`: `.` for the empty relative path, the
bare root for a rootless component list, else root followed by the
joined components. -/
def pyPathStr (p : PyPath) : String :=
  if p.comps.isEmpty then (if p.root = "" then "." else p.root)
  else p.root ++ joinComps p.comps

/-- Python truthiness of a constructed `pathlib.Path` object: always
true (`Path` defines neither `bool` nor `len`). -/
def pyPathObjTruthy (_p : PyPath) : Bool :=
  true

/-- `PurePosixPath.__truediv__` with a string right operand: a rooted
right operand discards the left side, otherwise the components are
appended under the left root. -/
def pyPathJoinStr (dir : PyPath) (s : String) : PyPath :=
  let q := pyPathParse s
  if q.root = "" then ⟨dir.root, dir.comps ++ q.comps⟩ else q

/-- The directory `move` resolves, as the `Path` object it builds:
`destination = Path(destination)` then
`directory_path = destination or Path(path.parent)`, the `or` being dead
because the converted `Path` is always truthy. -/
def moveDirectory (destination parent : String) : PyPath :=
  let d := pyPathParse destination
  if pyPathObjTruthy d then d else pyPathParse parent

/-- The destination path `move` computes and relocates the file to:
`str(Path(directory_path / create_path(meta, template, lower, dots)))`,
where `text` is the placeholder-substituted `meta.format(template)`
text. -/
def moveDestination (destination parent text : String) (lower dots : Bool) : String :=
  pyPathStr (pyPathJoinStr (moveDirectory destination parent)
    (create_pathStr text lower dots))

/-- The destination string `main` prints after processing a file:
`f'{destination}/{reformat}' if destination else reformat`, with
`reformat = meta.format(template)` the raw substituted text. -/
def reportedDestination (destination text : String) : String :=
  if destination = "" then text else destination ++ "/" ++ text

/-! ## Directory crawling (`dir_crawl`)

`dir_scan` (filesystem traversal) is abstracted: each target is `none`
when `path.exists()` is false, otherwise `some` of the list of files
`dir_scan` yields for it.  Each file carries its Python `suffix`, `stem`
and the string of its resolved absolute path. -/

/-- A candidate file as `dir_crawl` sees it. -/
structure PFile where
  suffix : String
  stem : String
  resolved : String
deriving DecidableEq, Repr

/-- The blacklist `dir_crawl` falls back to when the options carry no
`blacklist` key: `{'sample', 'rarbg'}`. -/
def defaultBlacklist : List String :=
  ["sample", "rarbg"]

/-- The per-file filter of `dir_crawl`'s inner loop: skip when a
non-empty extension mask lacks `file.suffix.strip('.')`, then skip when
any blacklist word occurs in `file.stem.lower()`. -/
def fileKept (extMask blacklist : List String) (f : PFile) : Bool :=
  !(!extMask.isEmpty && !extMask.contains (stripDotsEnds f.suffix)) &&
  !(blacklist.any fun word => containsSubStr word (lowerStr f.stem))

/-- Order-preserving deduplication (`seen` set plus list comprehension in
the source), keeping the first occurrence. -/
def dedupKeepFirst (seen : List String) : List String → List String
  | [] => []
  | x :: xs =>
    if seen.contains x then dedupKeepFirst seen xs
    else x :: dedupKeepFirst (x :: seen) xs

/-- `dir_crawl`: gather the files of every existing target that pass the
filter, then deduplicate their resolved paths keeping first-seen order.
`extMask` models `options.get('extension_mask', None)` with `[]` for the
falsy values `None` and the empty list; `blacklistOpt` models
`options.get('blacklist', {'sample', 'rarbg'})`. -/
def dir_crawl (targets : List (Option (List PFile)))
    (extMask : List String) (blacklistOpt : Option (List String)) : List String :=
  let blacklist := blacklistOpt.getD defaultBlacklist
  let files := targets.foldl
    (fun acc t => match t with
      | none => acc
      | some fs => acc ++ fs.filter (fileKept extMask blacklist))
    []
  dedupKeepFirst [] (files.map PFile.resolved)

/-! ## Candidate collection (`main`'s hits loop)

`i = 1; while i < max_hits: hit = next(results) ... i += 1`, breaking on
`StopIteration` or `MapiNotFoundException`.  The lazy result stream is
abstracted as the list of candidates it would yield before exhaustion or
a not-found signal. -/

/-- The `while i < max_hits` collection loop body. -/
def hitsLoop {α : Type} (i maxHits : Nat) : List α → List α
  | [] => []
  | r :: rs =>
    if i < maxHits then r :: hitsLoop (i + 1) maxHits rs
    else []

/-- Candidates collected for one file. -/
def collectHits {α : Type} (results : List α) (maxHits : Nat) : List α :=
  hitsLoop 1 maxHits results

/-! ## Interactive selection (`main`'s prompt loop) -/

/-- Terminal outcome of the per-file prompt loop. -/
inductive Selection where
  | chosen (i : Nat)
  | skipped
  | aborted
deriving DecidableEq, Repr

/-- One prompt iteration over an input line, for `n` presented hits:
empty input is the default choice, `s`-tokens skip, `q`-tokens abort, a
digit string with `0 < int(s) < n + 1` picks `hits[int(s) - 1]`, anything
else re-prompts (`none`). -/
def classifyInput (n : Nat) (s : String) : Option Selection :=
  if s = "" then some (Selection.chosen 0)
  else if s = "s" || s = "S" || s = "skip" || s = "SKIP" then some Selection.skipped
  else if s = "q" || s = "Q" || s = "quit" || s = "QUIT" then some Selection.aborted
  else if isDigitStr s && decide (0 < strToNat s) && decide (strToNat s < n + 1) then
    some (Selection.chosen (strToNat s - 1))
  else none

/-- The `while True` prompt loop, consuming one input line per iteration;
`none` when the supplied input lines run out before a terminating entry
(the real loop would keep blocking on the console). -/
def selectLoop (n : Nat) : List String → Option Selection
  | [] => none
  | s :: rest =>
    match classifyInput n s with
    | some r => some r
    | none => selectLoop n rest

/-! ## The run orchestrator (`main`'s per-file loop)

Each discovered file is abstracted to the externally determined behaviour
`main` observes for it: the outcome of `meta_parse` (which raises
`ValueError('Could not determine media type')` when guessit yields
neither a movie nor an episode), the candidate stream, the console input
lines typed at its prompt, and whether `shutil.move` succeeds. -/

/-- Abstracted per-file behaviour. -/
structure FileJob where
  parse : Except String Unit
  results : List Nat
  inputs : List String
  moveOk : Bool
deriving Repr

/-- How a run ends.  `finished` reaches the summary; `crashed` is an
uncaught exception escaping `main`; `aborted` is the early `return` on a
quit selection; `stuck` is the modelling artifact of exhausting the
supplied console input. -/
inductive RunOutcome where
  | finished (detected succeeded : Nat)
  | crashed (msg : String)
  | aborted (detected succeeded : Nat)
  | stuck (detected succeeded : Nat)
deriving DecidableEq, Repr

/-- `main`'s loop over the crawled files, carrying `detection_count` and
`success_count`.  `meta_parse` is called with no surrounding handler, so
its error ends the recursion as `crashed`; the only `try` in the loop
wraps the `move` call and catches `IOError` alone. -/
def processFiles (batch testRun : Bool) (maxHits : Nat) :
    List FileJob → Nat → Nat → RunOutcome
  | [], det, suc => RunOutcome.finished det suc
  | job :: rest, det, suc =>
    match job.parse with
    | Except.error msg => RunOutcome.crashed msg
    | Except.ok _ =>
      let det := det + 1
      let hits := collectHits job.results maxHits
      if hits.isEmpty then processFiles batch testRun maxHits rest det suc
      else
        let sel := if batch then some (Selection.chosen 0)
                   else selectLoop hits.length job.inputs
        match sel with
        | none => RunOutcome.stuck det suc
        | some Selection.skipped => processFiles batch testRun maxHits rest det suc
        | some Selection.aborted => RunOutcome.aborted det suc
        | some (Selection.chosen _) =>
          if testRun then processFiles batch testRun maxHits rest det (suc + 1)
          else if job.moveOk then processFiles batch testRun maxHits rest det (suc + 1)
          else processFiles batch testRun maxHits rest det suc

/-! ## Helper lemmas -/

lemma hitsLoop_length {α : Type} (maxHits : Nat) :
    ∀ (results : List α) (i : Nat),
      (hitsLoop i maxHits results).length = min (maxHits - i) results.length := by
  intro results
  induction results with
  | nil => intro i; simp [hitsLoop]
  | cons r rs ih =>
    intro i
    by_cases h : i < maxHits
    · simp only [hitsLoop, if_pos h, List.length_cons, ih (i + 1)]
      omega
    · simp only [hitsLoop, if_neg h, List.length_nil]
      omega

lemma replaceAmp_eq_self (l : List Char) (h : ∀ c ∈ l, c ≠ '&') : replaceAmp l = l := by
  induction l with
  | nil => rfl
  | cons c cs ih =>
    simp only [replaceAmp]
    rw [if_neg (h c (List.mem_cons_self c cs)),
      ih (fun x hx => h x (List.mem_cons_of_mem c hx))]

lemma fileKept_blacklisted (extMask blacklist : List String) (g : PFile)
    (h : blacklist.any (fun word => containsSubStr word (lowerStr g.stem)) = true) :
    fileKept extMask blacklist g = false := by
  simp [fileKept, h]

lemma mem_dedupKeepFirst (x : String) :
    ∀ (l seen : List String), x ∈ dedupKeepFirst seen l → x ∈ l := by
  intro l
  induction l with
  | nil => intro seen h; exact absurd h (by simp [dedupKeepFirst])
  | cons y ys ih =>
    intro seen h
    by_cases hy : seen.contains y
    · simp only [dedupKeepFirst, if_pos hy] at h
      exact List.mem_cons_of_mem y (ih seen h)
    · simp only [dedupKeepFirst, if_neg hy, List.mem_cons] at h
      rcases h with h | h
      · exact h ▸ List.mem_cons_self y ys
      · exact List.mem_cons_of_mem y (ih (y :: seen) h)

lemma mem_crawl_fold (extMask blacklist : List String) (r : String) :
    ∀ (targets : List (Option (List PFile))) (acc : List PFile),
      r ∈ (targets.foldl
        (fun acc t => match t with
          | none => acc
          | some fs => acc ++ fs.filter (fileKept extMask blacklist))
        acc).map PFile.resolved →
      r ∈ acc.map PFile.resolved ∨
        ∃ fs, (some fs) ∈ targets ∧
          ∃ g ∈ fs, fileKept extMask blacklist g = true ∧ g.resolved = r := by
  intro targets
  induction targets with
  | nil => intro acc h; exact Or.inl h
  | cons t ts ih =>
    intro acc h
    simp only [List.foldl_cons] at h
    match t with
    | none =>
      rcases ih acc h with h | ⟨fs, hfs, hg⟩
      · exact Or.inl h
      · exact Or.inr ⟨fs, List.mem_cons_of_mem none hfs, hg⟩
    | some fs =>
      rcases ih (acc ++ fs.filter (fileKept extMask blacklist)) h with h | ⟨fs2, hfs2, hg⟩
      · simp only [List.map_append, List.mem_append] at h
        rcases h with h | h
        · exact Or.inl h
        · rcases List.mem_map.mp h with ⟨g, hgmem, hgres⟩
          rcases List.mem_filter.mp hgmem with ⟨hgfs, hgkept⟩
          exact Or.inr ⟨fs, List.mem_cons_self (some fs) ts, g, hgfs, hgkept, hgres⟩
      · exact Or.inr ⟨fs2, List.mem_cons_of_mem (some fs) hfs2, hg⟩

lemma mem_dir_crawl (targets : List (Option (List PFile)))
    (extMask : List String) (blacklistOpt : Option (List String)) (r : String)
    (h : r ∈ dir_crawl targets extMask blacklistOpt) :
    ∃ fs, (some fs) ∈ targets ∧
      ∃ g ∈ fs, fileKept extMask (blacklistOpt.getD defaultBlacklist) g = true ∧
        g.resolved = r := by
  unfold dir_crawl at h
  have h2 := mem_dedupKeepFirst r _ [] h
  rcases mem_crawl_fold extMask (blacklistOpt.getD defaultBlacklist) r targets [] h2 with h3 | h3
  · exact absurd h3 (by simp)
  · exact h3

lemma joinComps_append (xs ys : List String) (hx : xs ≠ []) (hy : ys ≠ []) :
    joinComps (xs ++ ys) = joinComps xs ++ "/" ++ joinComps ys := by
  induction xs with
  | nil => exact absurd rfl hx
  | cons c cs ih =>
    cases cs with
    | nil =>
      cases ys with
      | nil => exact absurd rfl hy
      | cons y ys2 => simp [joinComps]
    | cons c2 cs2 =>
      have h2 := ih (by simp)
      have e1 : joinComps ((c :: c2 :: cs2) ++ ys)
          = c ++ "/" ++ joinComps ((c2 :: cs2) ++ ys) := rfl
      have e2 : joinComps (c :: c2 :: cs2) = c ++ "/" ++ joinComps (c2 :: cs2) := rfl
      rw [e1, e2, h2]
      simp [String.append_assoc]

lemma pyPathStr_of_ne_nil (p : PyPath) (h : p.comps ≠ []) :
    pyPathStr p = p.root ++ joinComps p.comps := by
  unfold pyPathStr
  rw [if_neg (by simpa using h)]

lemma isDigitStr_ne_tokens (s : String) (h : isDigitStr s = true) :
    s ≠ "" ∧ s ≠ "s" ∧ s ≠ "S" ∧ s ≠ "skip" ∧ s ≠ "SKIP" ∧
      s ≠ "q" ∧ s ≠ "Q" ∧ s ≠ "quit" ∧ s ≠ "QUIT" := by
  refine ⟨?_, ?_, ?_, ?_, ?_, ?_, ?_, ?_, ?_⟩ <;>
    (intro e; subst e; exact absurd h (by decide))

/-! ## Claim theorems -/

/-- C1.  Configuration precedence.  The claimed chain (defaults < config
file < CLI) does not hold: `main` merges each loaded config file UNDER
the accumulated options (`options = config-then-options`), and the
accumulated options already contain every built-in default, so a key
defined in a config file but absent from the CLI keeps its built-in
default, contradicting the claim (and the program's own help text).
Concretely, with defaults `batch := false`, a config file setting
`batch := true` and no CLI value, resolution yields `false`.  The final
conjunct shows the part of the claim that does hold: a key absent from
every override source (here `dots`) retains its default. -/
theorem config_precedence_code_bug :
    resolveOptions
        (fun k => if k = "batch" then some false
                  else if k = "dots" then some false else none)
        (fun _ => none)
        [fun k => if k = "batch" then some true else none]
        "batch" = some false ∧
    (fun k => if k = "batch" then some true else none : String → Option Bool)
        "batch" = some true ∧
    resolveOptions
        (fun k => if k = "batch" then some false
                  else if k = "dots" then some false else none)
        (fun _ => none)
        [fun k => if k = "batch" then some true else none]
        "dots" = some false := by
  refine ⟨rfl, rfl, rfl⟩

/-- C2 (counterexample).  The "could not determine media type" error is
not contained per file: with two discovered files whose first parse
raises it, the run ends as `crashed` — the second file is never reached
and no summary is produced, refuting skip-and-continue containment. -/
theorem parse_error_containment_counterexample :
    processFiles true false 15
      [⟨Except.error "Could not determine media type", [1], [], true⟩,
       ⟨Except.ok (), [1], [], true⟩] 0 0
      = RunOutcome.crashed "Could not determine media type" := rfl

/-- C2 (amended).  The `ValueError` raised by `meta_parse` propagates
uncaught out of `main`'s per-file loop (the loop's only handler wraps the
`move` call and catches `IOError` alone): whatever files remain and
whatever the counts so far, the run terminates as `crashed` — it is
fatal for the whole run, not just for that file. -/
theorem parse_error_terminates_run (batch testRun : Bool) (maxHits : Nat)
    (res : List Nat) (inp : List String) (mv : Bool)
    (rest : List FileJob) (det suc : Nat) :
    processFiles batch testRun maxHits
      (⟨Except.error "Could not determine media type", res, inp, mv⟩ :: rest) det suc
      = RunOutcome.crashed "Could not determine media type" := rfl

/-- C3.  Relocation destination fallback.  The claim fails: `move`
converts the destination option to a `Path` before the `or`-fallback,
and a `pathlib.Path` is always truthy (`Path('')` is `PosixPath('.')`),
so with the per-media-kind destination at its default empty string the
directory used is `.` (the working directory), never the source file's
parent; the spec-modelled resolution would give the parent.  The last
conjunct shows the fallback is dead for every string destination. -/
theorem move_destination_fallback_code_bug :
    moveDirectoryPath "" "/videos" = "." ∧
    specDirectoryPath "" "/videos" = "/videos" ∧
    ("." : String) ≠ "/videos" ∧
    (∀ destination parent : String,
      moveDirectoryPath destination parent = pyPathOfString destination) := by
  refine ⟨rfl, rfl, by decide, fun destination parent => rfl⟩

/-- C4.  Interactive selection semantics, for any non-empty candidate
list of length `n` in non-batch mode: empty input selects the first
candidate; a digit string `d` with `1 ≤ int(d) ≤ n` selects candidate
`int(d) - 1`; input `q` aborts (and, last conjunct, the orchestrator
then stops: the remaining files are not processed); an out-of-range
number re-prompts (the loop just continues on the remaining input); and
an input terminates the loop only when it is empty, a skip token, a quit
token, or an in-range digit string. -/
theorem interactive_selection_semantics (n : Nat) (_hn : 0 < n) :
    (∀ rest, selectLoop n ("" :: rest) = some (Selection.chosen 0)) ∧
    (∀ s rest, isDigitStr s = true → 1 ≤ strToNat s → strToNat s ≤ n →
      selectLoop n (s :: rest) = some (Selection.chosen (strToNat s - 1))) ∧
    (∀ rest, selectLoop n ("q" :: rest) = some Selection.aborted) ∧
    (∀ s rest, isDigitStr s = true → n < strToNat s →
      selectLoop n (s :: rest) = selectLoop n rest) ∧
    (∀ s r, classifyInput n s = some r →
      s = "" ∨ s = "s" ∨ s = "S" ∨ s = "skip" ∨ s = "SKIP" ∨
      s = "q" ∨ s = "Q" ∨ s = "quit" ∨ s = "QUIT" ∨
      (isDigitStr s = true ∧ 1 ≤ strToNat s ∧ strToNat s ≤ n)) ∧
    (∀ (rest : List FileJob) (det suc : Nat),
      processFiles false false 15
        (⟨Except.ok (), [1], ["q"], true⟩ :: rest) det suc
        = RunOutcome.aborted (det + 1) suc) := by
  refine ⟨?_, ?_, ?_, ?_, ?_, ?_⟩
  · intro rest
    simp [selectLoop, classifyInput]
  · intro s rest h1 h2 h3
    obtain ⟨t0, t1, t2, t3, t4, t5, t6, t7, t8⟩ := isDigitStr_ne_tokens s h1
    have hc : classifyInput n s = some (Selection.chosen (strToNat s - 1)) := by
      unfold classifyInput
      rw [if_neg t0, if_neg (by simp [t1, t2, t3, t4]),
        if_neg (by simp [t5, t6, t7, t8]), if_pos (by simp [h1]; omega)]
    simp [selectLoop, hc]
  · intro rest
    simp [selectLoop, classifyInput]
  · intro s rest h1 h2
    obtain ⟨t0, t1, t2, t3, t4, t5, t6, t7, t8⟩ := isDigitStr_ne_tokens s h1
    have hc : classifyInput n s = none := by
      unfold classifyInput
      rw [if_neg t0, if_neg (by simp [t1, t2, t3, t4]),
        if_neg (by simp [t5, t6, t7, t8]), if_neg (by simp; omega)]
    simp [selectLoop, hc]
  · intro s r h
    unfold classifyInput at h
    split_ifs at h with h1 h2 h3 h4
    · exact Or.inl h1
    · simp only [Bool.or_eq_true, decide_eq_true_eq] at h2
      tauto
    · simp only [Bool.or_eq_true, decide_eq_true_eq] at h3
      tauto
    · simp only [Bool.and_eq_true, decide_eq_true_eq] at h4
      obtain ⟨⟨hd, hpos⟩, hlt⟩ := h4
      exact Or.inr (Or.inr (Or.inr (Or.inr (Or.inr (Or.inr (Or.inr (Or.inr
        (Or.inr ⟨hd, by omega, by omega⟩))))))))
  · intro rest det suc
    rfl

/-- C4 (witness): the theorem instantiated at three candidates — empty
input picks the first, input 2 picks the second, q aborts, and an
out-of-range 5 re-prompts and the following 2 then picks the second. -/
theorem interactive_selection_semantics_witness :
    selectLoop 3 [""] = some (Selection.chosen 0) ∧
    selectLoop 3 ["2"] = some (Selection.chosen 1) ∧
    selectLoop 3 ["q"] = some Selection.aborted ∧
    selectLoop 3 ["5", "2"] = some (Selection.chosen 1) := by
  obtain ⟨c1, c2, c3, c4, _, _⟩ := interactive_selection_semantics 3 (by decide)
  refine ⟨c1 [], ?_, c3 [], ?_⟩
  · have h := c2 "2" [] (by decide) (by decide) (by decide)
    simpa using h
  · rw [c4 "5" ["2"] (by decide) (by decide)]
    have h := c2 "2" [] (by decide) (by decide) (by decide)
    simpa using h

/-- C5 (counterexample).  With metadata holding only `title := Alien`
(year omitted) and the movie template fragment, the substituted
intermediate text is exactly `Alien ` with a trailing space, yet
rendering with `dots := true` does not return `Alien`: the whitespace
collapse runs first and turns the trailing space into a trailing dot,
and the final `strip()` removes only whitespace. -/
theorem rendering_trailing_space_counterexample :
    formatTemplate [("title", "Alien")] "<$title ><($year)>" = "Alien " ∧
    create_pathStr (formatTemplate [("title", "Alien")] "<$title ><($year)>")
      false true ≠ "Alien" := by
  refine ⟨rfl, by decide⟩

/-- C5 (amended).  Trailing whitespace is NOT trimmed before the
dot-collapse: the collapse rewrites the trailing space to `.` and the
final `strip()` removes only whitespace, so the intermediate text
`Alien ` renders with `dots := true` to `Alien.` (trailing dot).  The
claim's second example is unaffected and holds: metadata
`title := The Thing`, `year := 1982` with the same template renders to
`The.Thing.(1982)`. -/
theorem rendering_dot_collapse_amended :
    create_pathStr (formatTemplate [("title", "Alien")] "<$title ><($year)>")
      false true = "Alien." ∧
    create_pathStr
      (formatTemplate [("title", "The Thing"), ("year", "1982")] "<$title ><($year)>")
      false true = "The.Thing.(1982)" := by
  refine ⟨rfl, rfl⟩

/-- C6 (counterexample).  With `max_hits = 3` and a source yielding five
candidates (no exhaustion, no not-found), the loop
`i = 1; while i < max_hits` collects only two candidates, not three. -/
theorem candidate_cap_counterexample :
    (collectHits [1, 2, 3, 4, 5] 3).length = 2 ∧ (2 : Nat) ≠ 3 := by
  refine ⟨rfl, by decide⟩

/-- C6 (amended).  The candidate list is capped at `max_hits - 1`, not
`max_hits`: the counter starts at 1 and the loop guard is
`i < max_hits`, so when the source yields at least `max_hits - 1`
results without exhaustion or not-found, exactly `max_hits - 1`
candidates are collected and presented. -/
theorem candidate_cap_amended {α : Type} (results : List α) (maxHits : Nat)
    (h : maxHits - 1 ≤ results.length) :
    (collectHits results maxHits).length = maxHits - 1 := by
  unfold collectHits
  rw [hitsLoop_length]
  omega

/-- C6 (witness): five available candidates, `max_hits = 3`. -/
theorem candidate_cap_witness :
    (collectHits [10, 20, 30, 40, 50] 3).length = 3 - 1 :=
  candidate_cap_amended [10, 20, 30, 40, 50] 3 (by decide)

/-- C7 (counterexample).  A file with suffix `.MKV` is NOT included when
the extension mask contains `mkv`: the crawl of a single existing target
holding only that file returns nothing, although the extension compared
case-insensitively is in the mask — the source compares
`file.suffix.strip('.')` against the mask without lowering it. -/
theorem extension_mask_case_counterexample :
    dir_crawl [some [⟨".MKV", "film", "/media/film.MKV"⟩]] ["mkv"] none = [] ∧
    lowerStr (stripDotsEnds (PFile.suffix ⟨".MKV", "film", "/media/film.MKV"⟩))
      = "mkv" := by
  refine ⟨rfl, rfl⟩

/-- C7 (amended).  Extension-mask filtering is case-SENSITIVE: for a
non-empty mask, a candidate file that no blacklist term excludes is kept
if and only if its extension stripped of surrounding dots is literally a
member of the mask (exact string comparison, no case folding). -/
theorem extension_mask_case_sensitive_amended
    (extMask blacklist : List String) (f : PFile)
    (hmask : extMask ≠ [])
    (hbl : blacklist.any (fun word => containsSubStr word (lowerStr f.stem)) = false) :
    fileKept extMask blacklist f = extMask.contains (stripDotsEnds f.suffix) := by
  match extMask, hmask with
  | e :: es, _ =>
    simp [fileKept, hbl]

/-- C7 (witness): a lowercase `.mkv` file against mask `mkv` with the
default blacklist. -/
theorem extension_mask_case_sensitive_witness :
    fileKept ["mkv"] ["sample", "rarbg"] ⟨".mkv", "film", "/a/film.mkv"⟩
      = (["mkv"] : List String).contains
          (stripDotsEnds (PFile.suffix ⟨".mkv", "film", "/a/film.mkv"⟩)) :=
  extension_mask_case_sensitive_amended ["mkv"] ["sample", "rarbg"]
    ⟨".mkv", "film", "/a/film.mkv"⟩ (by decide) (by decide)

/-- C8.  Ampersand replacement never happens: the whitelist strip of
step 3 already deletes `&` (it is outside the kept character set), so by
the time the step-5 replacement table `{'&': 'and'}` is applied there is
no `&` left and the word `and` is never inserted — on the intermediate
text `A & B` the output is `A B`, with no `and` in it.  The last
conjunct shows the replacement is dead code on every whitelist-stripped
text, contradicting the claim (and the evident purpose of the
replacement table in the source). -/
theorem ampersand_replacement_code_bug :
    create_pathStr "A & B" false false = "A B" ∧
    containsSubStr "and" (create_pathStr "A & B" false false) = false ∧
    (∀ text : List Char,
      replaceAmp (text.filter whitelistChar) = text.filter whitelistChar) := by
  refine ⟨rfl, rfl, ?_⟩
  intro text
  apply replaceAmp_eq_self
  intro c hc he
  have hw : whitelistChar c = true := (List.mem_filter.mp hc).2
  rw [he] at hw
  exact absurd hw (by decide)

/-- C9.  Implicit built-in blacklist.  When the options carry no
`blacklist` key (none of the CLI options ever defines one),
`dir_crawl` falls back to `{'sample', 'rarbg'}`: a candidate file whose
lowercased stem contains `sample` or `rarbg` as a substring fails the
per-file filter whatever the extension mask is, and its resolved path
never appears in the crawl output of any target list in which that path
belongs only to files with that stem. -/
theorem implicit_blacklist_excludes (f : PFile)
    (h : containsSubStr "sample" (lowerStr f.stem) = true ∨
         containsSubStr "rarbg" (lowerStr f.stem) = true) :
    (∀ extMask : List String, fileKept extMask defaultBlacklist f = false) ∧
    (∀ (targets : List (Option (List PFile))) (extMask : List String),
      (∀ fs, (some fs) ∈ targets → ∀ g ∈ fs, g.resolved = f.resolved → g.stem = f.stem) →
      f.resolved ∉ dir_crawl targets extMask none) := by
  have hany : ∀ g : PFile, g.stem = f.stem →
      defaultBlacklist.any (fun word => containsSubStr word (lowerStr g.stem)) = true := by
    intro g hg
    rw [hg]
    simp only [defaultBlacklist, List.any_cons, List.any_nil,
      Bool.or_false, Bool.or_eq_true]
    tauto
  constructor
  · intro extMask
    exact fileKept_blacklisted extMask defaultBlacklist f (hany f rfl)
  · intro targets extMask hstem hmem
    obtain ⟨fs, hfs, g, hgfs, hkept, hres⟩ :=
      mem_dir_crawl targets extMask none f.resolved hmem
    have hfalse := fileKept_blacklisted extMask defaultBlacklist g
      (hany g (hstem fs hfs g hgfs hres))
    simp only [Option.getD] at hkept
    rw [hfalse] at hkept
    exact Bool.false_ne_true hkept

/-- C9 (witness): a `movie-sample.mkv` file is filtered out and its path
absent from the crawl of a target holding it, under the default (absent)
blacklist option. -/
theorem implicit_blacklist_excludes_witness :
    fileKept ["mkv"] defaultBlacklist
      ⟨".mkv", "movie-sample", "/x/movie-sample.mkv"⟩ = false ∧
    "/x/movie-sample.mkv" ∉
      dir_crawl [some [⟨".mkv", "movie-sample", "/x/movie-sample.mkv"⟩]]
        ["mkv"] none := by
  obtain ⟨h1, h2⟩ := implicit_blacklist_excludes
    ⟨".mkv", "movie-sample", "/x/movie-sample.mkv"⟩ (Or.inl (by decide))
  refine ⟨h1 ["mkv"], h2 _ ["mkv"] ?_⟩
  intro fs hfs g hg _
  simp only [List.mem_singleton, Option.some.injEq] at hfs
  subst hfs
  simp only [List.mem_singleton] at hg
  subst hg
  rfl

/-- C10 (counterexample).  The printed destination and the relocation
destination disagree: with the destination option unset, source parent
`/videos`, substituted text `The Thing` and `dots := true`, the
orchestrator prints the raw text `The Thing` while `move` relocates to
`The.Thing` (the sanitized rendering, rooted at `.` by the truthy-Path
destination resolution). -/
theorem reported_destination_counterexample :
    reportedDestination "" "The Thing" = "The Thing" ∧
    moveDestination "" "/videos" "The Thing" false true = "The.Thing" ∧
    ("The Thing" : String) ≠ "The.Thing" := by
  refine ⟨rfl, rfl, by decide⟩

/-- C10 (amended).  The printed destination is computed from the RAW
template substitution while `move` relocates to the sanitized
`create_path` output passed through `pathlib` normalization, so the two
agree only on the domain where neither transformation changes anything:
when the destination option is set to a path already in `pathlib` normal
form with at least one component (so non-empty, not `.`, not a bare
root, and with no trailing, doubled or `.` parts), and the substituted
text is relative, non-empty, itself in normal form, and left unchanged
by the sanitization pipeline, then the string `main` prints equals the
destination path `move` computes.  Outside that domain they differ, as
the counterexample shows. -/
theorem reported_destination_amended (destination parent text : String)
    (lower dots : Bool)
    (hdnorm : pyPathStr (pyPathParse destination) = destination)
    (hdcomps : (pyPathParse destination).comps ≠ [])
    (htnorm : pyPathStr (pyPathParse text) = text)
    (htroot : (pyPathParse text).root = "")
    (htcomps : (pyPathParse text).comps ≠ [])
    (hsan : create_pathStr text lower dots = text) :
    reportedDestination destination text
      = moveDestination destination parent text lower dots := by
  have hne : destination ≠ "" := by
    intro e
    rw [e] at hdcomps
    exact hdcomps (by decide)
  have hd : destination
      = (pyPathParse destination).root ++ joinComps (pyPathParse destination).comps := by
    conv_lhs => rw [← hdnorm]
    exact pyPathStr_of_ne_nil _ hdcomps
  have ht : text = joinComps (pyPathParse text).comps := by
    conv_lhs => rw [← htnorm]
    rw [pyPathStr_of_ne_nil _ htcomps, htroot]
    exact String.empty_append _
  unfold reportedDestination moveDestination moveDirectory pyPathJoinStr
  rw [if_neg hne, hsan]
  simp only [pyPathObjTruthy, if_pos htroot, if_true]
  rw [pyPathStr_of_ne_nil _ (by
    intro h
    exact hdcomps (List.append_eq_nil.mp h).1)]
  show destination ++ "/" ++ text
    = (pyPathParse destination).root
        ++ joinComps ((pyPathParse destination).comps ++ (pyPathParse text).comps)
  rw [joinComps_append _ _ hdcomps htcomps, ← String.append_assoc,
    ← String.append_assoc, ← hd, ← ht]

/-- C10 (witness): destination `/dest` and text `Movie` are both in
`pathlib` normal form and the sanitization fixes the text, so the
printed and actual destinations agree, by the amended theorem. -/
theorem reported_destination_amended_witness :
    reportedDestination "/dest" "Movie"
      = moveDestination "/dest" "/parent" "Movie" false false :=
  reported_destination_amended "/dest" "/parent" "Movie" false false
    (by decide) (by decide) (by decide) (by decide) (by decide) (by decide)

end Mnamer
